import Mathlib

/-!
Verification development for the plagiarism-check backend
(`src/backend/app.py`).  The Python source is shallowly embedded below:
pure string processing becomes Lean functions on `String` / `List Char`,
the submission store (`submissions.json`) becomes an explicit
`List Submission` threaded through the handlers, Python floats become
exact numbers (`ℚ` where the code only does field arithmetic, `ℝ` where
cosine similarity introduces square roots), and the wall clock becomes an
explicit `now` parameter.
-/

namespace PlagiarismCheck

/-! ### Python string primitives

`str.lower()`, `str.split()` (no argument: split on whitespace runs,
dropping empty pieces) and `' '.join(...)`, embedded at the `List Char`
level. -/

/-- Whitespace tokenisation of a character list: maximal runs of
non-whitespace characters, in order; empty pieces are dropped.  This is
the behaviour of Python `str.split()` with no argument. -/
def splitWsChars : List Char → List (List Char)
  | [] => []
  | c :: cs =>
    if c.isWhitespace then splitWsChars cs
    else
      match cs, splitWsChars cs with
      | [], _ => [[c]]
      | d :: _, r =>
        if d.isWhitespace then [c] :: r
        else
          match r with
          | [] => [[c]]
          | t :: ts => (c :: t) :: ts

/-- Python `text.split()`: whitespace-delimited tokens of a string. -/
def pySplitWs (s : String) : List String :=
  (splitWsChars s.data).map String.mk

/-- Python `text.lower()` (character-wise lowercasing). -/
def lowerStr (s : String) : String :=
  ⟨s.data.map Char.toLower⟩

/-- Single-space join at the `List Char` level. -/
def joinSp : List (List Char) → List Char
  | [] => []
  | [l] => l
  | l :: l' :: ls => l ++ ' ' :: joinSp (l' :: ls)

/-- Python `' '.join(words)`. -/
def pyJoinSp (ts : List String) : String :=
  ⟨joinSp (ts.map String.data)⟩

/-- Modelled from the spec: the NLTK English stop-word corpus used by
`preprocess_text` is an external data resource, not part of `src/`.
Spec §4.1 requires "a fixed English stop-word set (a standard ~150-200
word list: articles, pronouns, prepositions, common auxiliaries - exact
membership is not contract-critical but must be deterministic)".  This is
the standard NLTK English list (179 entries). -/
def stop_words : List String :=
  ["i", "me", "my", "myself", "we", "our", "ours", "ourselves", "you",
   "you\x27re", "you\x27ve", "you\x27ll", "you\x27d", "your", "yours",
   "yourself", "yourselves", "he", "him", "his", "himself", "she",
   "she\x27s", "her", "hers", "herself", "it", "it\x27s", "its", "itself",
   "they", "them", "their", "theirs", "themselves", "what", "which",
   "who", "whom", "this", "that", "that\x27ll", "these", "those", "am",
   "is", "are", "was", "were", "be", "been", "being", "have", "has",
   "had", "having", "do", "does", "did", "doing", "a", "an", "the",
   "and", "but", "if", "or", "because", "as", "until", "while", "of",
   "at", "by", "for", "with", "about", "against", "between", "into",
   "through", "during", "before", "after", "above", "below", "to",
   "from", "up", "down", "in", "out", "on", "off", "over", "under",
   "again", "further", "then", "once", "here", "there", "when", "where",
   "why", "how", "all", "any", "both", "each", "few", "more", "most",
   "other", "some", "such", "no", "nor", "not", "only", "own", "same",
   "so", "than", "too", "very", "s", "t", "can", "will", "just", "don",
   "don\x27t", "should", "should\x27ve", "now", "d", "ll", "m", "o",
   "re", "ve", "y", "ain", "aren", "aren\x27t", "couldn", "couldn\x27t",
   "didn", "didn\x27t", "doesn", "doesn\x27t", "hadn", "hadn\x27t",
   "hasn", "hasn\x27t", "haven", "haven\x27t", "isn", "isn\x27t", "ma",
   "mightn", "mightn\x27t", "mustn", "mustn\x27t", "needn",
   "needn\x27t", "shan", "shan\x27t", "shouldn", "shouldn\x27t",
   "wasn", "wasn\x27t", "weren", "weren\x27t", "won", "won\x27t",
   "wouldn", "wouldn\x27t"]

/-- Embedding of `preprocess_text` (`src/backend/app.py` lines 76-84):
lowercase the text, split on whitespace, drop stop-word tokens, rejoin
with single spaces.  The Python `except` branch (returning the original
text) is unreachable in the pure embedding, as every step is total. -/
def preprocess_text (text : String) : String :=
  let words := pySplitWs (lowerStr text)
  pyJoinSp (words.filter (fun word => decide (word ∉ stop_words)))

/-! ### Seed data (`SAMPLE_QUESTIONS`) -/

structure QuestionData where
  question : String
  sample_answers : List String

def python_sample_1 : String :=
  "Inheritance is a mechanism that allows a class to inherit attributes and methods from another class.\n            For example, class Dog(Animal) inherits from Animal class, getting its properties like \x27speak\x27 and \x27eat\x27."

def python_sample_2 : String :=
  "Python inheritance is when one class takes on the attributes and methods of another class.\n            The class that inherits is called child class, while the class being inherited from is the parent class."

def database_sample_1 : String :=
  "Database normalization is the process of organizing data to minimize redundancy.\n            It involves dividing large tables into smaller ones and defining relationships between them."

def database_sample_2 : String :=
  "Normalization is a technique used in database design to reduce data redundancy and ensure data integrity.\n            It follows normal forms like 1NF, 2NF, and 3NF to structure the database efficiently."

def networking_sample_1 : String :=
  "TCP/IP is a suite of communication protocols used to interconnect network devices on the internet.\n            TCP ensures reliable data delivery while IP handles addressing and routing."

def networking_sample_2 : String :=
  "The TCP/IP protocol is the fundamental communication protocol of the internet.\n            It uses a layered approach and includes protocols like TCP for data transfer and IP for routing."

/-- Embedding of the module-level `SAMPLE_QUESTIONS` dictionary
(`src/backend/app.py` lines 24-53), as a partial lookup function
(`dict.get` semantics). -/
def SAMPLE_QUESTIONS (question_type : String) : Option QuestionData :=
  if question_type = "python" then
    some ⟨"Explain the concept of inheritance in Python with an example.",
          [python_sample_1, python_sample_2]⟩
  else if question_type = "database" then
    some ⟨"What is normalization in database design?",
          [database_sample_1, database_sample_2]⟩
  else if question_type = "networking" then
    some ⟨"Explain TCP/IP protocol.",
          [networking_sample_1, networking_sample_2]⟩
  else none

/-! ### Submission store -/

/-- One record of `submissions.json` (see `save_submission`,
`src/backend/app.py` lines 64-74).  The similarity score is stored as an
exact real number. -/
structure Submission where
  timestamp : String
  question : String
  answer : String
  similarity_score : ℝ

/-- Embedding of `save_submission` (`src/backend/app.py` lines 64-74):
load the current submission list and append one record.  The wall-clock
timestamp `datetime.now().isoformat()` is passed in as `now`. -/
def save_submission (now question answer : String) (similarity_score : ℝ)
    (submissions : List Submission) : List Submission :=
  submissions ++ [⟨now, question, answer, similarity_score⟩]

/-! ### Similarity engine

Modelled from the spec: the similarity computation in
`check_plagiarism` calls `TfidfVectorizer` and `cosine_similarity` from
scikit-learn, an external library whose code is not part of `src/`.
Spec §4.3 specifies the behaviour: documents (candidate plus corpus) are
bags of whitespace tokens, term weights are term frequency times a
smoothed inverse document frequency, vectors are L2-normalised and
compared by cosine; it adds that "any TF-IDF variant is acceptable as
long as it is monotonic in term rarity and produces L2-normalized
vectors for cosine comparison".  We use the monotone integer weight
`idf(t) = (1+N) - df(t)` (rarer term ⇒ smaller `df` ⇒ strictly larger
weight; always ≥ 1 since `df ≤ N`) in place of the logarithmic
`ln((1+N)/(1+df(t)))+1`, so that all vector entries stay in `ℕ` and
concrete evaluations are decidable; only the final cosine (a quotient
by a square root) lives in `ℝ`.  Every theorem below other than the
C7 counterexample depends only on properties shared by all acceptable
variants (positivity and monotonicity in rarity); for the
counterexample the decrease was checked numerically for the
logarithmic and for other monotone variants as well (the mechanism —
the larger collection inflating the weights of corpus-only terms — is
the same).  An empty vocabulary makes `TfidfVectorizer.fit_transform`
raise, which the `except` branch of `check_plagiarism` turns into the
fallback result `(0.0, True)`; the embedding models this as an explicit
branch. -/

/-- The bag of whitespace tokens of a document, lowercased (the
vectorizer's analyzer per spec §4.3). -/
def simTokens (s : String) : List String :=
  pySplitWs (lowerStr s)

/-- Term frequency: number of occurrences of token `t` in document `d`. -/
def tfCount (d : List String) (t : String) : ℕ :=
  d.count t

/-- Document frequency: number of documents containing token `t`. -/
def docFreq (docs : List (List String)) (t : String) : ℕ :=
  (docs.filter (fun d => decide (t ∈ d))).length

/-- Smoothed inverse document frequency over the document collection
(monotone in term rarity; see the section comment). -/
def idf (docs : List (List String)) (t : String) : ℕ :=
  1 + docs.length - docFreq docs t

/-- TF-IDF weight of token `t` in document `d`. -/
def tfidfWeight (docs : List (List String)) (d : List String) (t : String) : ℕ :=
  tfCount d t * idf docs t

/-- The vocabulary of the document collection (distinct tokens). -/
def vocab (docs : List (List String)) : List String :=
  docs.flatten.dedup

/-- Dot product of the TF-IDF vectors of two documents over the
collection's vocabulary. -/
def dotW (docs : List (List String)) (d1 d2 : List String) : ℕ :=
  ∑ t ∈ (vocab docs).toFinset, tfidfWeight docs d1 t * tfidfWeight docs d2 t

/-- Cosine similarity of the TF-IDF vectors of two documents
(equivalently, the dot product of the L2-normalised vectors).  Division
by a zero norm yields `0`, matching scikit-learn's all-zero rows. -/
noncomputable def cosineSim (docs : List (List String)) (d1 d2 : List String) : ℝ :=
  (dotW docs d1 d2 : ℝ) / Real.sqrt ((dotW docs d1 d1 : ℝ) * (dotW docs d2 d2 : ℝ))

/-- Python `max` over a list of similarity values (`0` when empty; the
code guards the empty case separately). -/
noncomputable def listMax : List ℝ → ℝ
  | [] => 0
  | x :: xs => xs.foldl max x

/-- The comparison collection assembled by `check_plagiarism`
(`src/backend/app.py` lines 89-94): the category's seed sample answers
(empty when the category is unknown) followed by the stored answer of
every previous submission. -/
def all_texts_of (question_type : String) (submissions : List Submission) :
    List String :=
  let corpus := ((SAMPLE_QUESTIONS question_type).map QuestionData.sample_answers).getD []
  let previous_answers := submissions.map Submission.answer
  corpus ++ previous_answers

/-- Embedding of `check_plagiarism` (`src/backend/app.py` lines 86-109):
assemble the corpus, return `(0.0, True)` when it is empty, otherwise
fit TF-IDF vectors over `[answer] + all_texts`, take the maximal cosine
similarity against the corpus, scale to a percentage and compare with
the threshold 30.  The empty-vocabulary branch models the scikit-learn
exception caught by the `except` fallback (also `(0.0, True)`). -/
noncomputable def check_plagiarism (answer : String) (question_type : String)
    (submissions : List Submission) : ℝ × Prop :=
  let all_texts := all_texts_of question_type submissions
  if all_texts = [] then ((0 : ℝ), True)
  else
    let docs := (answer :: all_texts).map simTokens
    if vocab docs = [] then ((0 : ℝ), True)
    else
      let similarity_scores := all_texts.map fun t => cosineSim docs (simTokens answer) (simTokens t)
      let max_similarity := listMax similarity_scores * 100
      (max_similarity, max_similarity < 30)

/-- Embedding of `calculate_english_quality` (`src/backend/app.py`
lines 111-121): lowercase, split on whitespace; fewer than 20 tokens
yields the sentinel `0.5`, otherwise the distinct-token count divided by
the token count.  The `except` fallback (returning `0.0`) is unreachable
in the pure embedding. -/
def calculate_english_quality (text : String) : ℚ :=
  let words := pySplitWs (lowerStr text)
  if words.length < 20 then 1 / 2
  else (words.dedup.length : ℚ) / (words.length : ℚ)

/-! ### The `/evaluate` handler -/

/-- The JSON request body: a dictionary that may or may not carry the
two required string fields. -/
structure EvalRequest where
  answer : Option String
  question_type : Option String

/-- Result of `evaluate_answer`: the success payload (HTTP 200) or the
missing-field client error (HTTP 400). -/
inductive EvalResponse where
  | ok (is_original : Prop) (similarity_score : ℝ) (english_quality : ℚ)
      (accuracy : ℝ)
  | clientError (error : String)

def EvalResponse.is_original : EvalResponse → Prop
  | .ok o _ _ _ => o
  | .clientError _ => False

noncomputable def EvalResponse.similarity_score : EvalResponse → ℝ
  | .ok _ s _ _ => s
  | .clientError _ => 0

def EvalResponse.english_quality : EvalResponse → ℚ
  | .ok _ _ q _ => q
  | .clientError _ => 0

noncomputable def EvalResponse.accuracy : EvalResponse → ℝ
  | .ok _ _ _ a => a
  | .clientError _ => 0

def EvalResponse.isClientError : EvalResponse → Prop
  | .ok _ _ _ _ => False
  | .clientError _ => True

open Classical in
/-- Embedding of the `/evaluate` handler `evaluate_answer`
(`src/backend/app.py` lines 134-170): validate the presence of both
fields, preprocess the answer, run the plagiarism check, compute the
quality metric, aggregate the accuracy, append the submission record,
and return the response together with the updated store. -/
noncomputable def evaluate_answer (now : String) (data : Option EvalRequest)
    (submissions : List Submission) : EvalResponse × List Submission :=
  match data with
  | none => (.clientError "Answer and question type are required", submissions)
  | some d =>
    match d.answer, d.question_type with
    | some answer, some question_type =>
      let preprocessed_answer := preprocess_text answer
      let checked := check_plagiarism preprocessed_answer question_type submissions
      let similarity_score := checked.1
      let is_original := checked.2
      let english_quality := calculate_english_quality answer
      let accuracy : ℝ :=
        (if is_original then (0.7 : ℝ) else (0.3 : ℝ)) + (english_quality : ℝ) * 0.3
      (.ok is_original similarity_score english_quality accuracy,
       save_submission now question_type answer similarity_score submissions)
    | _, _ => (.clientError "Answer and question type are required", submissions)

/-! ### Claim C1: corpus assembly -/

/-- The corpus as the spec words it (§3 "Corpus"): the seed sample
answers for the target category — the empty sequence when the category
is unknown — concatenated with the stored answer field of every
submission ever recorded, across all categories. -/
def corpus_spec (category : String) (submissions : List Submission) : List String :=
  (if category = "python" then [python_sample_1, python_sample_2]
   else if category = "database" then [database_sample_1, database_sample_2]
   else if category = "networking" then [networking_sample_1, networking_sample_2]
   else []) ++ submissions.map Submission.answer

/-- C1: for every evaluation, the comparison corpus passed to the
similarity computation is exactly the seed sample answers of the
requested category (empty if unknown) concatenated with the stored
answer of every previously recorded submission, with no category
filtering of historical submissions. -/
theorem C1_corpus_assembly (question_type : String) (submissions : List Submission) :
    all_texts_of question_type submissions = corpus_spec question_type submissions := by
  by_cases h1 : question_type = "python"
  · simp [all_texts_of, corpus_spec, SAMPLE_QUESTIONS, h1]
  · by_cases h2 : question_type = "database"
    · simp [all_texts_of, corpus_spec, SAMPLE_QUESTIONS, h1, h2]
    · by_cases h3 : question_type = "networking"
      · simp [all_texts_of, corpus_spec, SAMPLE_QUESTIONS, h1, h2, h3]
      · simp [all_texts_of, corpus_spec, SAMPLE_QUESTIONS, h1, h2, h3]

/-! ### Claim C2: originality threshold -/

/-- C2: in every branch of the plagiarism check — main computation,
empty corpus, and the internal-failure fallback (empty vocabulary) —
the returned originality flag holds exactly when the returned
similarity score is strictly below 30. -/
theorem C2_is_original_iff_below_threshold (answer question_type : String)
    (submissions : List Submission) :
    (check_plagiarism answer question_type submissions).2 ↔
      (check_plagiarism answer question_type submissions).1 < 30 := by
  unfold check_plagiarism
  by_cases h1 : all_texts_of question_type submissions = []
  · simp [h1]
  · by_cases h2 : vocab (simTokens answer ::
        (all_texts_of question_type submissions).map simTokens) = []
    · simp [h1, h2]
    · simp [h1, h2]

/-! ### Claim C6: empty corpus -/

/-- C6: when the assembled reference corpus is empty (unknown category
and no prior submissions), the plagiarism check returns similarity 0
and an affirmative originality flag. -/
theorem C6_empty_corpus_trivially_original (answer question_type : String)
    (submissions : List Submission)
    (h : all_texts_of question_type submissions = []) :
    (check_plagiarism answer question_type submissions).1 = 0 ∧
      (check_plagiarism answer question_type submissions).2 := by
  simp [check_plagiarism, h]

/-- Witness for C6 at a concrete unknown category and empty store. -/
theorem C6_empty_corpus_trivially_original_witness :
    (check_plagiarism "hello" "history" []).1 = 0 ∧
      (check_plagiarism "hello" "history" []).2 :=
  C6_empty_corpus_trivially_original "hello" "history" [] (by decide)

/-! ### Claim C8: the submission record -/

/-- C8: every successful evaluation appends exactly one record — with
the request's timestamp, category, unnormalised answer, and the computed
similarity score — to the submission store, leaving all previously
stored records unchanged. -/
theorem C8_store_appends_one_record (now answer question_type : String)
    (submissions : List Submission) :
    (evaluate_answer now (some ⟨some answer, some question_type⟩) submissions).2 =
      submissions ++
        [⟨now, question_type, answer,
          (check_plagiarism (preprocess_text answer) question_type submissions).1⟩] := by
  simp [evaluate_answer, save_submission]

/-! ### Claim C9: missing fields -/

/-- C9: a request with a missing body, missing answer field or missing
question-type field yields a client error and leaves the submission
store unchanged. -/
theorem C9_missing_fields_client_error (now : String) (data : Option EvalRequest)
    (submissions : List Submission)
    (h : data = none ∨ ∃ d, data = some d ∧
      (d.answer = none ∨ d.question_type = none)) :
    (evaluate_answer now data submissions).1.isClientError ∧
      (evaluate_answer now data submissions).2 = submissions := by
  rcases h with h | ⟨d, rfl, hd⟩
  · subst h
    simp [evaluate_answer, EvalResponse.isClientError]
  · obtain ⟨ans, qt⟩ := d
    rcases hd with h | h



    · simp only at h
      subst h
      cases qt <;> simp [evaluate_answer, EvalResponse.isClientError]
    · simp only at h
      subst h
      cases ans <;> simp [evaluate_answer, EvalResponse.isClientError]

/-- Witness for C9 at a concrete request lacking the answer field. -/
theorem C9_missing_fields_client_error_witness :
    (evaluate_answer "t" (some ⟨none, some "python"⟩) []).1.isClientError ∧
      (evaluate_answer "t" (some ⟨none, some "python"⟩) []).2 = [] :=
  C9_missing_fields_client_error "t" (some ⟨none, some "python"⟩) []
    (Or.inr ⟨⟨none, some "python"⟩, rfl, Or.inl rfl⟩)

/-! ### Claim C5: accuracy aggregation -/

open Classical in
/-- C5: the returned accuracy equals `(0.7 if is_original else 0.3) +
english_quality * 0.3`, where the originality flag and the quality are
the values returned in the same result. -/
theorem C5_accuracy_formula (now answer question_type : String)
    (submissions : List Submission) :
    (evaluate_answer now (some ⟨some answer, some question_type⟩) submissions).1.accuracy =
      (if (evaluate_answer now (some ⟨some answer, some question_type⟩) submissions).1.is_original
        then (0.7 : ℝ) else (0.3 : ℝ)) +
      ((evaluate_answer now (some ⟨some answer, some question_type⟩) submissions).1.english_quality : ℝ)
        * 0.3 := by
  simp [evaluate_answer, EvalResponse.accuracy, EvalResponse.is_original,
    EvalResponse.english_quality]

/-! ### Claim C3: english quality -/

/-- The quality score never drops below 0 and never exceeds 1. -/
theorem calculate_english_quality_mem_unit (text : String) :
    0 ≤ calculate_english_quality text ∧ calculate_english_quality text ≤ 1 := by
  simp only [calculate_english_quality]
  split
  · norm_num
  · constructor
    · positivity
    · apply div_le_one_of_le₀
      · exact_mod_cast (List.dedup_sublist (pySplitWs (lowerStr text))).length_le
      · positivity

/-- C3: the quality metric returns the sentinel `0.5` for fewer than 20
whitespace tokens, and otherwise the type-token ratio (distinct tokens
over total tokens), which lies in `(0, 1]`. -/
theorem C3_english_quality_formula (text : String) :
    ((pySplitWs (lowerStr text)).length < 20 →
      calculate_english_quality text = 1 / 2) ∧
    (20 ≤ (pySplitWs (lowerStr text)).length →
      calculate_english_quality text =
        ((pySplitWs (lowerStr text)).dedup.length : ℚ) /
          ((pySplitWs (lowerStr text)).length : ℚ) ∧
      0 < calculate_english_quality text ∧
      calculate_english_quality text ≤ 1) := by
  constructor
  · intro h
    simp [calculate_english_quality, h]
  · intro h
    have hne : pySplitWs (lowerStr text) ≠ [] := by
      intro hnil
      rw [hnil] at h
      simp at h
    have hq : calculate_english_quality text =
        ((pySplitWs (lowerStr text)).dedup.length : ℚ) /
          ((pySplitWs (lowerStr text)).length : ℚ) := by
      unfold calculate_english_quality
      rw [if_neg (by omega)]
    refine ⟨hq, ?_, (calculate_english_quality_mem_unit text).2⟩
    rw [hq]
    apply div_pos
    · have : (pySplitWs (lowerStr text)).dedup ≠ [] := by
        simpa [List.dedup_eq_nil] using hne
      have : 0 < (pySplitWs (lowerStr text)).dedup.length :=
        List.length_pos.mpr this
      exact_mod_cast this
    · have : 0 < (pySplitWs (lowerStr text)).length := by omega
      exact_mod_cast this

/-- Witness for C3: a short answer gets the sentinel, a 20-token answer
gets its exact type-token ratio, here positive and at most 1. -/
theorem C3_english_quality_formula_witness :
    calculate_english_quality "too short" = 1 / 2 ∧
      (calculate_english_quality "a b c d e f g h j k l m n p q r u v w x" =
        ((pySplitWs (lowerStr "a b c d e f g h j k l m n p q r u v w x")).dedup.length : ℚ) /
          ((pySplitWs (lowerStr "a b c d e f g h j k l m n p q r u v w x")).length : ℚ) ∧
      0 < calculate_english_quality "a b c d e f g h j k l m n p q r u v w x" ∧
      calculate_english_quality "a b c d e f g h j k l m n p q r u v w x" ≤ 1) :=
  ⟨(C3_english_quality_formula "too short").1 (by decide),
   (C3_english_quality_formula "a b c d e f g h j k l m n p q r u v w x").2 (by decide)⟩

/-! ### Claim C4: output ranges

The similarity bound rests on nonnegativity of the TF-IDF weights and
the Cauchy-Schwarz inequality for the dot product. -/

theorem docFreq_le (docs : List (List String)) (t : String) :
    docFreq docs t ≤ docs.length :=
  List.length_filter_le _ docs

theorem idf_pos (docs : List (List String)) (t : String) : 0 < idf docs t := by
  have := docFreq_le docs t
  unfold idf
  omega

theorem dotW_cast_nonneg (docs : List (List String)) (d1 d2 : List String) :
    (0 : ℝ) ≤ (dotW docs d1 d2 : ℝ) :=
  Nat.cast_nonneg _

/-- Cauchy-Schwarz for the TF-IDF dot product. -/
theorem dotW_sq_le (docs : List (List String)) (d1 d2 : List String) :
    (dotW docs d1 d2) ^ 2 ≤ dotW docs d1 d1 * dotW docs d2 d2 := by
  have hcs := Finset.sum_mul_sq_le_sq_mul_sq (vocab docs).toFinset
    (tfidfWeight docs d1) (tfidfWeight docs d2)
  have h1 : dotW docs d1 d1 =
      ∑ t ∈ (vocab docs).toFinset, tfidfWeight docs d1 t ^ 2 :=
    Finset.sum_congr rfl fun t _ => (pow_two _).symm
  have h2 : dotW docs d2 d2 =
      ∑ t ∈ (vocab docs).toFinset, tfidfWeight docs d2 t ^ 2 :=
    Finset.sum_congr rfl fun t _ => (pow_two _).symm
  rw [h1, h2]
  exact hcs

theorem cosineSim_nonneg (docs : List (List String)) (d1 d2 : List String) :
    0 ≤ cosineSim docs d1 d2 := by
  unfold cosineSim
  exact div_nonneg (dotW_cast_nonneg docs d1 d2) (Real.sqrt_nonneg _)

theorem cosineSim_le_one (docs : List (List String)) (d1 d2 : List String) :
    cosineSim docs d1 d2 ≤ 1 := by
  unfold cosineSim
  apply div_le_one_of_le₀ _ (Real.sqrt_nonneg _)
  have hd : (0 : ℝ) ≤ (dotW docs d1 d2 : ℝ) := dotW_cast_nonneg docs d1 d2
  rw [← Real.sqrt_sq hd]
  apply Real.sqrt_le_sqrt
  exact_mod_cast dotW_sq_le docs d1 d2

theorem foldl_max_le {c : ℝ} :
    ∀ (l : List ℝ) (init : ℝ), init ≤ c → (∀ x ∈ l, x ≤ c) →
      l.foldl max init ≤ c
  | [], _, hi, _ => hi
  | x :: xs, init, hi, h =>
    foldl_max_le xs (max init x) (max_le hi (h x (List.Mem.head _)))
      fun y hy => h y (List.Mem.tail _ hy)

theorem le_foldl_max : ∀ (l : List ℝ) (init : ℝ), init ≤ l.foldl max init
  | [], _ => le_refl _
  | x :: xs, init => le_trans (le_max_left init x) (le_foldl_max xs (max init x))

theorem listMax_le {c : ℝ} (hc : 0 ≤ c) (l : List ℝ) (h : ∀ x ∈ l, x ≤ c) :
    listMax l ≤ c := by
  cases l with
  | nil => exact hc
  | cons x xs =>
    exact foldl_max_le xs x (h x (List.Mem.head _)) fun y hy => h y (List.Mem.tail _ hy)

theorem listMax_nonneg (l : List ℝ) (h : ∀ x ∈ l, 0 ≤ x) : 0 ≤ listMax l := by
  cases l with
  | nil => exact le_refl _
  | cons x xs => exact le_trans (h x (List.Mem.head _)) (le_foldl_max xs x)

/-- The similarity score returned by the plagiarism check lies in
`[0, 100]` in every branch. -/
theorem check_plagiarism_score_bounds (answer question_type : String)
    (submissions : List Submission) :
    0 ≤ (check_plagiarism answer question_type submissions).1 ∧
      (check_plagiarism answer question_type submissions).1 ≤ 100 := by
  unfold check_plagiarism
  by_cases h1 : all_texts_of question_type submissions = []
  · simp [h1]
  · by_cases h2 : vocab (simTokens answer ::
        (all_texts_of question_type submissions).map simTokens) = []
    · simp [h1, h2]
    · have hmax0 : 0 ≤ listMax ((all_texts_of question_type submissions).map fun t =>
          cosineSim (simTokens answer ::
            (all_texts_of question_type submissions).map simTokens)
            (simTokens answer) (simTokens t)) := by
        apply listMax_nonneg
        intro x hx
        rcases List.mem_map.mp hx with ⟨t, _, rfl⟩
        exact cosineSim_nonneg _ _ _
      have hmax1 : listMax ((all_texts_of question_type submissions).map fun t =>
          cosineSim (simTokens answer ::
            (all_texts_of question_type submissions).map simTokens)
            (simTokens answer) (simTokens t)) ≤ 1 := by
        apply listMax_le (by norm_num)
        intro x hx
        rcases List.mem_map.mp hx with ⟨t, _, rfl⟩
        exact cosineSim_le_one _ _ _
      simp only [List.map_cons]
      rw [if_neg h1, if_neg h2]
      constructor
      · exact mul_nonneg hmax0 (by norm_num)
      · exact le_trans (mul_le_mul_of_nonneg_right hmax1 (by norm_num)) (by norm_num)

/-- C4: for every valid evaluation input the similarity score lies in
`[0, 100]`, the english quality in `[0, 1]`, and the accuracy in
`[0.3, 1]`. -/
theorem C4_output_ranges (now answer question_type : String)
    (submissions : List Submission) :
    0 ≤ (evaluate_answer now (some ⟨some answer, some question_type⟩)
        submissions).1.similarity_score ∧
    (evaluate_answer now (some ⟨some answer, some question_type⟩)
        submissions).1.similarity_score ≤ 100 ∧
    0 ≤ (evaluate_answer now (some ⟨some answer, some question_type⟩)
        submissions).1.english_quality ∧
    (evaluate_answer now (some ⟨some answer, some question_type⟩)
        submissions).1.english_quality ≤ 1 ∧
    (0.3 : ℝ) ≤ (evaluate_answer now (some ⟨some answer, some question_type⟩)
        submissions).1.accuracy ∧
    (evaluate_answer now (some ⟨some answer, some question_type⟩)
        submissions).1.accuracy ≤ 1 := by
  have hs := check_plagiarism_score_bounds (preprocess_text answer)
    question_type submissions
  have hq := calculate_english_quality_mem_unit answer
  have hq0 : (0 : ℝ) ≤ (calculate_english_quality answer : ℝ) := by
    exact_mod_cast hq.1
  have hq1 : (calculate_english_quality answer : ℝ) ≤ 1 := by
    exact_mod_cast hq.2
  simp only [evaluate_answer, EvalResponse.similarity_score,
    EvalResponse.english_quality, EvalResponse.accuracy]
  refine ⟨hs.1, hs.2, hq.1, hq.2, ?_, ?_⟩
  · split
    · linarith
    · linarith
  · split
    · linarith
    · linarith

/-! ### Claim C10: idempotence of the normaliser -/

theorem char_ofNat_toNat {n : Nat} (h : n.isValidChar) :
    (Char.ofNat n).toNat = n := by
  unfold Char.ofNat
  rw [dif_pos h]
  rfl

theorem toLower_toNat_of_upper {c : Char}
    (h : 65 ≤ c.toNat ∧ c.toNat ≤ 90) :
    c.toLower.toNat = c.toNat + 32 := by
  unfold Char.toLower
  rw [if_pos ⟨h.1, h.2⟩]
  exact char_ofNat_toNat (Or.inl (by omega))

theorem toLower_of_not_upper {c : Char}
    (h : ¬(65 ≤ c.toNat ∧ c.toNat ≤ 90)) :
    c.toLower = c := by
  unfold Char.toLower
  rw [if_neg h]

/-- Lowercasing a character twice is the same as doing it once. -/
theorem toLower_toLower (c : Char) : c.toLower.toLower = c.toLower := by
  by_cases h : 65 ≤ c.toNat ∧ c.toNat ≤ 90
  · apply toLower_of_not_upper
    rw [toLower_toNat_of_upper h]
    omega
  · simp [toLower_of_not_upper h]

/-- Every token produced by the whitespace splitter is nonempty and
consists of non-whitespace characters of the input. -/
theorem splitWs_sound :
    ∀ cs : List Char, ∀ l ∈ splitWsChars cs,
      l ≠ [] ∧ ∀ c ∈ l, c.isWhitespace = false ∧ c ∈ cs := by
  intro cs
  induction cs with
  | nil =>
    intro l hl
    simp [splitWsChars] at hl
  | cons c cs ih =>
    intro l hl
    by_cases hc : c.isWhitespace = true
    · simp only [splitWsChars, hc, if_true] at hl
      obtain ⟨h1, h2⟩ := ih l hl
      exact ⟨h1, fun d hd => ⟨(h2 d hd).1, List.mem_cons_of_mem _ (h2 d hd).2⟩⟩
    · simp only [Bool.not_eq_true] at hc
      cases cs with
      | nil =>
        simp [splitWsChars, hc] at hl
        subst hl
        refine ⟨by simp, ?_⟩
        intro d hd
        simp at hd
        subst hd
        exact ⟨hc, by simp⟩
      | cons d cs' =>
        by_cases hd : d.isWhitespace = true
        · simp only [splitWsChars, hc, Bool.false_eq_true, if_false, hd, if_true] at hl
          rcases List.mem_cons.mp hl with hl | hl
          · subst hl
            refine ⟨by simp, ?_⟩
            intro e he
            simp at he
            subst he
            exact ⟨hc, by simp⟩
          · have hl2 : l ∈ splitWsChars (d :: cs') := by
              simp only [splitWsChars, hd, if_true]
              exact hl
            obtain ⟨h1, h2⟩ := ih l hl2
            exact ⟨h1, fun e he => ⟨(h2 e he).1, List.mem_cons_of_mem _ (h2 e he).2⟩⟩
        · simp only [Bool.not_eq_true] at hd
          have heq : splitWsChars (c :: d :: cs') =
              match splitWsChars (d :: cs') with
              | [] => [[c]]
              | t :: ts => (c :: t) :: ts := by
            simp [splitWsChars, hc, hd]
          rw [heq] at hl
          cases hsp : splitWsChars (d :: cs') with
          | nil =>
            rw [hsp] at hl
            simp at hl
            subst hl
            refine ⟨by simp, ?_⟩
            intro e he
            simp at he
            subst he
            exact ⟨hc, by simp⟩
          | cons t ts =>
            rw [hsp] at hl
            rcases List.mem_cons.mp hl with hl | hl
            · subst hl
              have ht := ih t (by rw [hsp]; exact List.mem_cons_self _ _)
              refine ⟨by simp, ?_⟩
              intro e he
              rcases List.mem_cons.mp he with rfl | he'
              · exact ⟨hc, by simp⟩
              · have h2 := ht.2 e he'
                exact ⟨h2.1, List.mem_cons_of_mem _ h2.2⟩
            · have hl' := ih l (by rw [hsp]; exact List.mem_cons_of_mem _ hl)
              exact ⟨hl'.1, fun e he =>
                ⟨(hl'.2 e he).1, List.mem_cons_of_mem _ (hl'.2 e he).2⟩⟩

/-- A nonempty all-non-whitespace list splits to itself. -/
theorem splitWs_token (l : List Char) (hne : l ≠ [])
    (hl : ∀ c ∈ l, c.isWhitespace = false) :
    splitWsChars l = [l] := by
  induction l with
  | nil => cases hne rfl
  | cons c cs ih =>
    have hc : c.isWhitespace = false := hl c (by simp)
    cases cs with
    | nil => simp [splitWsChars, hc]
    | cons d cs' =>
      have hd : d.isWhitespace = false := hl d (by simp)
      have ih' : splitWsChars (d :: cs') = [d :: cs'] :=
        ih (by simp) fun e he => hl e (List.mem_cons_of_mem _ he)
      have heq : splitWsChars (c :: d :: cs') =
          match splitWsChars (d :: cs') with
          | [] => [[c]]
          | t :: ts => (c :: t) :: ts := by
        simp [splitWsChars, hc, hd]
      rw [heq, ih']

/-- Splitting a token, a space, and a remainder recovers the token and
the split of the remainder. -/
theorem splitWs_token_append (l r : List Char) (hne : l ≠ [])
    (hl : ∀ c ∈ l, c.isWhitespace = false) :
    splitWsChars (l ++ ' ' :: r) = l :: splitWsChars r := by
  induction l with
  | nil => cases hne rfl
  | cons c cs ih =>
    have hc : c.isWhitespace = false := hl c (by simp)
    cases cs with
    | nil => simp [splitWsChars, hc]
    | cons d cs' =>
      have hd : d.isWhitespace = false := hl d (by simp)
      have ih' := ih (by simp) fun e he => hl e (List.mem_cons_of_mem _ he)
      simp only [List.cons_append] at ih' ⊢
      have heq : splitWsChars (c :: d :: (cs' ++ ' ' :: r)) =
          match splitWsChars (d :: (cs' ++ ' ' :: r)) with
          | [] => [[c]]
          | t :: ts => (c :: t) :: ts := by
        simp [splitWsChars, hc, hd]
      rw [heq, ih']

/-- Splitting the single-space join of good tokens recovers the
tokens. -/
theorem splitWs_joinSp :
    ∀ ls : List (List Char), (∀ l ∈ ls, l ≠ []) →
      (∀ l ∈ ls, ∀ c ∈ l, c.isWhitespace = false) →
      splitWsChars (joinSp ls) = ls
  | [], _, _ => by simp [joinSp, splitWsChars]
  | [l], h1, h2 => by
    simp only [joinSp]
    exact splitWs_token l (h1 l (by simp)) (h2 l (by simp))
  | l :: l' :: ls, h1, h2 => by
    rw [joinSp, splitWs_token_append l _ (h1 l (by simp)) (h2 l (by simp)),
      splitWs_joinSp (l' :: ls) (fun x hx => h1 x (List.mem_cons_of_mem _ hx))
        (fun x hx => h2 x (List.mem_cons_of_mem _ hx))]

/-- A character-wise map that fixes the space commutes with the
single-space join. -/
theorem map_joinSp (f : Char → Char) (hf : f ' ' = ' ') :
    ∀ ls : List (List Char), (joinSp ls).map f = joinSp (ls.map (List.map f))
  | [] => by simp [joinSp]
  | [l] => by simp [joinSp]
  | l :: l' :: ls => by
    have ih := map_joinSp f hf (l' :: ls)
    simp only [joinSp, List.map_append, List.map_cons, List.map_map] at ih ⊢
    simp [ih, hf]

/-- The normaliser fixes any single-space join of nonempty,
whitespace-free, lowercase-fixed, non-stop-word tokens. -/
theorem preprocess_pyJoinSp_fixed (ts : List String)
    (h1 : ∀ t ∈ ts, t.data ≠ [])
    (h2 : ∀ t ∈ ts, ∀ c ∈ t.data, c.isWhitespace = false)
    (h3 : ∀ t ∈ ts, ∀ c ∈ t.data, c.toLower = c)
    (h4 : ∀ t ∈ ts, t ∉ stop_words) :
    preprocess_text (pyJoinSp ts) = pyJoinSp ts := by
  have e1 : lowerStr (pyJoinSp ts) = pyJoinSp ts := by
    show String.mk ((joinSp (ts.map String.data)).map Char.toLower) =
      String.mk (joinSp (ts.map String.data))
    apply congrArg
    rw [map_joinSp Char.toLower (by decide)]
    apply congrArg
    rw [List.map_map]
    apply List.map_congr_left
    intro t ht
    show (t.data).map Char.toLower = t.data
    calc (t.data).map Char.toLower = (t.data).map id :=
          List.map_congr_left fun c hc => h3 t ht c hc
      _ = t.data := List.map_id _
  have e2 : pySplitWs (pyJoinSp ts) = ts := by
    show (splitWsChars (joinSp (ts.map String.data))).map String.mk = ts
    rw [splitWs_joinSp (ts.map String.data)
      (by
        intro l hlm
        rcases List.mem_map.mp hlm with ⟨t, ht, rfl⟩
        exact h1 t ht)
      (by
        intro l hlm
        rcases List.mem_map.mp hlm with ⟨t, ht, rfl⟩
        exact h2 t ht)]
    rw [List.map_map]
    have hcomp : (String.mk ∘ String.data) = id := funext fun s => rfl
    rw [hcomp, List.map_id]
  have e3 : ts.filter (fun word => decide (word ∉ stop_words)) = ts :=
    List.filter_eq_self.mpr fun t ht => decide_eq_true (h4 t ht)
  show pyJoinSp ((pySplitWs (lowerStr (pyJoinSp ts))).filter
    (fun word => decide (word ∉ stop_words))) = pyJoinSp ts
  rw [e1, e2, e3]

/-- C10: text normalisation is idempotent — applying the normaliser
(lowercase, split on whitespace, drop stop-word tokens, rejoin with
single spaces) to its own output returns that output unchanged. -/
theorem C10_preprocess_idempotent (text : String) :
    preprocess_text (preprocess_text text) = preprocess_text text := by
  show preprocess_text (pyJoinSp ((pySplitWs (lowerStr text)).filter
    (fun word => decide (word ∉ stop_words)))) = _
  apply preprocess_pyJoinSp_fixed
  · intro t ht
    have htm := (List.mem_filter.mp ht).1
    rcases List.mem_map.mp htm with ⟨l, hlm, rfl⟩
    exact (splitWs_sound _ l hlm).1
  · intro t ht c hc
    have htm := (List.mem_filter.mp ht).1
    rcases List.mem_map.mp htm with ⟨l, hlm, rfl⟩
    exact ((splitWs_sound _ l hlm).2 c hc).1
  · intro t ht c hc
    have htm := (List.mem_filter.mp ht).1
    rcases List.mem_map.mp htm with ⟨l, hlm, rfl⟩
    have hcl : c ∈ (lowerStr text).data := ((splitWs_sound _ l hlm).2 c hc).2
    have : c ∈ text.data.map Char.toLower := hcl
    rcases List.mem_map.mp this with ⟨e, _, rfl⟩
    exact toLower_toLower e
  · intro t ht
    have := (List.mem_filter.mp ht).2
    exact of_decide_eq_true this

/-! ### Claim C7: corpus growth and measured similarity

The corpus passed to the second of two identical submissions strictly
extends the first's, and with document-space weights held fixed the
maximal cosine over the extended corpus cannot decrease.  The claimed
inequality between the two *measured* scores is nevertheless false:
the TF-IDF weights are refitted over the enlarged document collection,
which rescales every vector, and the rescaling can lower the maximal
cosine below its value in the first evaluation.  The counterexample
below exhibits this with the real seed texts; the same decrease occurs
under the logarithmic weighting `ln((1+N)/(1+df))+1` of the spec's
reference formula (the mechanism — a larger `N` inflating the weights
of the corpus-only terms — is identical). -/

theorem foldl_max_lt {c : ℝ} :
    ∀ (l : List ℝ) (init : ℝ), init < c → (∀ x ∈ l, x < c) →
      l.foldl max init < c
  | [], _, hi, _ => hi
  | x :: xs, init, hi, h =>
    foldl_max_lt xs (max init x) (max_lt hi (h x (by simp)))
      fun y hy => h y (List.mem_cons_of_mem _ hy)

theorem listMax_lt {c : ℝ} (l : List ℝ) (hne : l ≠ []) (h : ∀ x ∈ l, x < c) :
    listMax l < c := by
  cases l with
  | nil => cases hne rfl
  | cons x xs =>
    exact foldl_max_lt xs x (h x (by simp)) fun y hy => h y (List.mem_cons_of_mem _ hy)

theorem le_foldl_max_of_mem {x : ℝ} :
    ∀ (l : List ℝ) (init : ℝ), x ∈ l → x ≤ l.foldl max init
  | y :: ys, init, hx => by
    rcases List.mem_cons.mp hx with rfl | hx'
    · exact le_trans (le_max_right init x) (le_foldl_max ys (max init x))
    · exact le_foldl_max_of_mem ys (max init y) hx'

theorem le_listMax_of_mem {x : ℝ} {l : List ℝ} (hx : x ∈ l) : x ≤ listMax l := by
  cases l with
  | nil => simp at hx
  | cons y ys =>
    rcases List.mem_cons.mp hx with rfl | hx'
    · exact le_foldl_max ys x
    · exact le_foldl_max_of_mem ys y hx'

theorem listMax_le_append (l1 l2 : List ℝ) (h : ∀ x ∈ l2, 0 ≤ x) :
    listMax l1 ≤ listMax (l1 ++ l2) := by
  cases l1 with
  | nil => simpa using listMax_nonneg l2 h
  | cons x xs =>
    show xs.foldl max x ≤ (xs ++ l2).foldl max x
    rw [List.foldl_append]
    exact le_foldl_max _ _

/-- Comparison of two cosine similarities reduces to a rational
cross-multiplied comparison of the dot products. -/
theorem cosineSim_lt_cosineSim (docsA : List (List String)) (a1 a2 : List String)
    (docsB : List (List String)) (b1 b2 : List String)
    (hQA : 0 < dotW docsA a1 a1 * dotW docsA a2 a2)
    (hQB : 0 < dotW docsB b1 b1 * dotW docsB b2 b2)
    (key : (dotW docsA a1 a2) ^ 2 * (dotW docsB b1 b1 * dotW docsB b2 b2) <
      (dotW docsB b1 b2) ^ 2 * (dotW docsA a1 a1 * dotW docsA a2 a2)) :
    cosineSim docsA a1 a2 < cosineSim docsB b1 b2 := by
  unfold cosineSim
  have hPA : (0 : ℝ) < (dotW docsA a1 a1 : ℝ) * (dotW docsA a2 a2 : ℝ) := by
    exact_mod_cast hQA
  have hPB : (0 : ℝ) < (dotW docsB b1 b1 : ℝ) * (dotW docsB b2 b2 : ℝ) := by
    exact_mod_cast hQB
  rw [div_lt_div_iff₀ (Real.sqrt_pos.mpr hPA) (Real.sqrt_pos.mpr hPB)]
  have hb : (0 : ℝ) ≤ (dotW docsB b1 b2 : ℝ) := dotW_cast_nonneg docsB b1 b2
  apply lt_of_pow_lt_pow_left₀ 2 (mul_nonneg hb (Real.sqrt_nonneg _))
  rw [mul_pow, mul_pow, Real.sq_sqrt hPA.le, Real.sq_sqrt hPB.le]
  exact_mod_cast key

/-- The answer used by the counterexample: its normalised form is the
single token "inheritance", while its raw form (the one stored in the
corpus) is dominated by the stop word "the". -/
def c7_answer : String :=
  "Inheritance the the the the the the the the the the"

def c7_request : Option EvalRequest := some ⟨some c7_answer, some "python"⟩

/-- C7 counterexample: the claim "the second of two identical
submissions measures a similarity ≥ the first\x27s" is false on the code.
Submitting `c7_answer` twice to category "python" from an empty store:
the first evaluation scores it against the two seeds only, the second
against seeds plus the stored raw answer, but the TF-IDF weights are
refitted over the enlarged collection and the measured maximal cosine
drops (≈ 0.0642 to ≈ 0.0462 under the embedded weights; the same
decrease occurs under scikit-learn\x27s logarithmic weights,
≈ 0.1080 to ≈ 0.0942). -/
theorem C7_counterexample_similarity_decreases :
    (evaluate_answer "t2" c7_request
        ((evaluate_answer "t1" c7_request []).2)).1.similarity_score <
      (evaluate_answer "t1" c7_request []).1.similarity_score := by
  have hp : preprocess_text c7_answer = "inheritance" := by decide
  have hstore : (evaluate_answer "t1" c7_request []).2 =
      [⟨"t1", "python", c7_answer,
        (check_plagiarism "inheritance" "python" []).1⟩] := by
    simp [c7_request, evaluate_answer, save_submission, hp]
  have e1 : (evaluate_answer "t1" c7_request []).1.similarity_score =
      (check_plagiarism "inheritance" "python" []).1 := by
    simp [c7_request, evaluate_answer, EvalResponse.similarity_score, hp]
  have e2 : (evaluate_answer "t2" c7_request
      ((evaluate_answer "t1" c7_request []).2)).1.similarity_score =
      (check_plagiarism "inheritance" "python"
        [⟨"t1", "python", c7_answer,
          (check_plagiarism "inheritance" "python" []).1⟩]).1 := by
    rw [hstore]
    simp [c7_request, evaluate_answer, EvalResponse.similarity_score, hp]
  have hne1 : all_texts_of "python" ([] : List Submission) =
      [python_sample_1, python_sample_2] := rfl
  have hexp1 : (check_plagiarism "inheritance" "python" []).1 =
      listMax [cosineSim [simTokens "inheritance", simTokens python_sample_1,
          simTokens python_sample_2] (simTokens "inheritance") (simTokens python_sample_1),
        cosineSim [simTokens "inheritance", simTokens python_sample_1,
          simTokens python_sample_2] (simTokens "inheritance") (simTokens python_sample_2)]
        * 100 := by
    simp only [check_plagiarism, hne1, List.map_cons, List.map_nil]
    rw [if_neg (show ¬([python_sample_1, python_sample_2] = ([] : List String)) by simp),
      if_neg (show ¬(vocab [simTokens "inheritance", simTokens python_sample_1,
        simTokens python_sample_2] = []) by decide)]
  have hexp2 : ∀ σ : ℝ, (check_plagiarism "inheritance" "python"
      [⟨"t1", "python", c7_answer, σ⟩]).1 =
      listMax [cosineSim [simTokens "inheritance", simTokens python_sample_1,
          simTokens python_sample_2, simTokens c7_answer]
          (simTokens "inheritance") (simTokens python_sample_1),
        cosineSim [simTokens "inheritance", simTokens python_sample_1,
          simTokens python_sample_2, simTokens c7_answer]
          (simTokens "inheritance") (simTokens python_sample_2),
        cosineSim [simTokens "inheritance", simTokens python_sample_1,
          simTokens python_sample_2, simTokens c7_answer]
          (simTokens "inheritance") (simTokens c7_answer)] * 100 := by
    intro σ
    have hne2 : all_texts_of "python" [⟨"t1", "python", c7_answer, σ⟩] =
        [python_sample_1, python_sample_2, c7_answer] := rfl
    simp only [check_plagiarism, hne2, List.map_cons, List.map_nil]
    rw [if_neg (show ¬([python_sample_1, python_sample_2, c7_answer] =
        ([] : List String)) by simp),
      if_neg (show ¬(vocab [simTokens "inheritance", simTokens python_sample_1,
        simTokens python_sample_2, simTokens c7_answer] = []) by decide)]
  rw [e1, e2, hexp1, hexp2]
  apply mul_lt_mul_of_pos_right _ (by norm_num : (0 : ℝ) < 100)
  apply lt_of_lt_of_le _ (le_listMax_of_mem
    (show cosineSim [simTokens "inheritance", simTokens python_sample_1,
        simTokens python_sample_2] (simTokens "inheritance") (simTokens python_sample_1) ∈
      [cosineSim [simTokens "inheritance", simTokens python_sample_1,
        simTokens python_sample_2] (simTokens "inheritance") (simTokens python_sample_1),
       cosineSim [simTokens "inheritance", simTokens python_sample_1,
        simTokens python_sample_2] (simTokens "inheritance") (simTokens python_sample_2)]
      by simp))
  refine listMax_lt _ (by simp) ?_
  intro y hy
  simp only [List.mem_cons, List.not_mem_nil, or_false] at hy
  rcases hy with rfl | rfl | rfl
  · exact cosineSim_lt_cosineSim _ _ _ _ _ _ (by decide) (by decide) (by decide)
  · exact cosineSim_lt_cosineSim _ _ _ _ _ _ (by decide) (by decide) (by decide)
  · exact cosineSim_lt_cosineSim _ _ _ _ _ _ (by decide) (by decide) (by decide)

/-- C7 as amended: the second evaluation\x27s corpus is exactly the
first\x27s extended by the first submission\x27s raw answer, and with the
document-space weights held fixed the maximal cosine over the extended
corpus is never smaller; the measured score itself may still decrease
because the weights are refitted (see the counterexample). -/
theorem C7_amended_corpus_monotone (now answer question_type : String)
    (submissions : List Submission) (docs : List (List String))
    (cand : List String) :
    all_texts_of question_type
        ((evaluate_answer now (some ⟨some answer, some question_type⟩)
          submissions).2) =
      all_texts_of question_type submissions ++ [answer] ∧
    listMax ((all_texts_of question_type submissions).map fun t =>
        cosineSim docs cand (simTokens t)) ≤
      listMax ((all_texts_of question_type
          ((evaluate_answer now (some ⟨some answer, some question_type⟩)
            submissions).2)).map
        fun t => cosineSim docs cand (simTokens t)) := by
  have hstore : (evaluate_answer now (some ⟨some answer, some question_type⟩)
      submissions).2 =
      submissions ++ [⟨now, question_type, answer,
        (check_plagiarism (preprocess_text answer) question_type submissions).1⟩] := by
    simp [evaluate_answer, save_submission]
  have hcorp : all_texts_of question_type
      ((evaluate_answer now (some ⟨some answer, some question_type⟩)
        submissions).2) =
      all_texts_of question_type submissions ++ [answer] := by
    rw [hstore]
    simp [all_texts_of, List.append_assoc]
  refine ⟨hcorp, ?_⟩
  rw [hcorp, List.map_append]
  apply listMax_le_append
  intro x hx
  rcases List.mem_map.mp hx with ⟨t, _, rfl⟩
  exact cosineSim_nonneg _ _ _

end PlagiarismCheck


